import Mathlib

/-!
Verification of `list_refresher.py` (SpotifyPlaylistRefresher).

Shallow embedding of the program's functions:
* `extract_playlist_id` models the regex loop (lines 21-35): `re.search`
  over three patterns, each a literal followed by `([a-zA-Z0-9]+)`.
* `get_playlist_tracks` models the pagination loop (lines 37-57).
* `refresh_playlist` models the orchestrator (lines 59-99), with the
  remote service modelled as an explicit playlist state (a list of
  playlist items) and a script of call outcomes.
-/

/-- Python's `[a-zA-Z0-9]` character class. -/
def isAlnum (c : Char) : Bool := c.isAlpha || c.isDigit

/-- Attempt to match, at the current position, a pattern of the form
`literal([a-zA-Z0-9]+)`: the literal `pat` must be a list prefix of `s` and at
least one alphanumeric character must follow; the (greedy) capture group is the
maximal alphanumeric run after the literal. -/
def matchAt (pat s : List Char) : Option (List Char) :=
  if pat.isPrefixOf s then
    if ((s.drop pat.length).takeWhile isAlnum).isEmpty then none
    else some ((s.drop pat.length).takeWhile isAlnum)
  else none

/-- `re.search` for a pattern `literal([a-zA-Z0-9]+)`: try each start
position from the left, return the capture group of the leftmost match. -/
def search (pat : List Char) : List Char → Option (List Char)
  | [] => none
  | c :: t =>
    match matchAt pat (c :: t) with
    | some r => some r
    | none => search pat t

/-- The three regex literals of `extract_playlist_id` (the `\.` in the Python
patterns are escaped dots, i.e. literal characters). -/
def patterns : List (List Char) :=
  [("spotify:playlist:").toList,
   ("open.spotify.com/playlist/").toList,
   ("spotify.com/playlist/").toList]

/-- `extract_playlist_id` (lines 21-35): try each pattern in order, return the
first match's capture group; `none` models raising `ValueError`. -/
def extract_playlist_id (playlist_url : List Char) : Option (List Char) :=
  patterns.findSome? (fun pat => search pat playlist_url)

/-! ## Data model (lines 37-57) -/

/-- An artist object as returned by the API (only the field the code reads). -/
structure Artist where
  name : String
deriving DecidableEq

/-- The `item['track']` object: `id` is `None` (here `none`) for local files. -/
structure TrackObj where
  id : Option String
  uri : String
  name : String
  artists : List Artist
deriving DecidableEq

/-- One element of `results['items']`; `track` may be `None`. -/
structure PlaylistItem where
  track : Option TrackObj
deriving DecidableEq

/-- The dict built by `get_playlist_tracks` for each eligible item. -/
structure Track where
  id : String
  uri : String
  name : String
  artists : List String
deriving DecidableEq

/-- Python truthiness of `item['track']['id']`: `None` and `""` are falsy. -/
def truthyId : Option String → Bool
  | none => false
  | some s => !s.isEmpty

/-- The body of the `for item in results['items']` loop: keep an item iff
`item['track'] and item['track']['id']` is truthy, building the track dict. -/
def processItems (items : List PlaylistItem) : List Track :=
  items.filterMap (fun item =>
    match item.track with
    | none => none
    | some t =>
      match t.id with
      | none => none
      | some i =>
        if i.isEmpty then none
        else some { id := i, uri := t.uri, name := t.name,
                    artists := t.artists.map (fun a => a.name) })

/-- `get_playlist_tracks` (lines 37-57): the remote pagination is modelled as
the list of successive page-fetch outcomes (`Except.error` = the fetch raised).
Page `k+1` exists exactly when page `k` had a `next` link; a fetch failure
raises out of the loop, discarding everything collected so far. -/
def get_playlist_tracks : List (Except String (List PlaylistItem)) → Except String (List Track)
  | [] => Except.ok []
  | Except.error e :: _ => Except.error e
  | Except.ok items :: rest =>
    match get_playlist_tracks rest with
    | Except.error e => Except.error e
    | Except.ok ts => Except.ok (processItems items ++ ts)

/-! ## Batching (lines 84-92): `for i in range(0, len(track_uris), 100)` -/

/-- Structural helper for the slicing loop; `fuel` bounds the number of
iterations (any `fuel ≥ l.length` gives the loop's behaviour). -/
def batchesAux (α : Type) : Nat → List α → List (List α)
  | _, [] => []
  | 0, l => [l]
  | fuel + 1, l => l.take 100 :: batchesAux α fuel (l.drop 100)

/-- The batch slicing `track_uris[i:i+100]` for `i = 0, 100, 200, ...`. -/
def batches {α : Type} (l : List α) : List (List α) :=
  batchesAux α l.length l

/-! ## Remote mutation calls and the orchestrator (lines 59-99) -/

/-- Whether a remove batch matches a playlist item: Spotify's
`playlist_remove_all_occurrences_of_items` removes every item whose track URI
occurs in the given batch (items without a track object have no URI). -/
def itemMatches (uris : List String) (item : PlaylistItem) : Bool :=
  match item.track with
  | none => false
  | some t => decide (t.uri ∈ uris)

/-- Effect of `sp.playlist_remove_all_occurrences_of_items(playlist_id, batch)`
on the remote playlist state. -/
def playlist_remove_all_occurrences_of_items
    (state : List PlaylistItem) (uris : List String) : List PlaylistItem :=
  state.filter (fun item => !itemMatches uris item)

/-- The service's track catalog: the id / name / artists belonging to a track
URI (used when a track is re-added by URI). -/
structure Catalog where
  trackId : String → String
  trackName : String → String
  trackArtists : String → List Artist

/-- The playlist item created when `sp.playlist_add_items` adds one URI. -/
def addedItem (cat : Catalog) (u : String) : PlaylistItem :=
  { track := some { id := some (cat.trackId u), uri := u,
                    name := cat.trackName u, artists := cat.trackArtists u } }

/-- Effect of `sp.playlist_add_items(playlist_id, batch)`: appends the batch's
tracks to the playlist. -/
def playlist_add_items (cat : Catalog)
    (state : List PlaylistItem) (uris : List String) : List PlaylistItem :=
  state ++ uris.map (addedItem cat)

/-- Result of `sp.playlist(playlist_id)` (only the fields the code reads). -/
structure PlaylistInfo where
  name : String
  owner_display_name : String
deriving DecidableEq

/-- The injected remote client: the catalog, the scripted outcome of the
metadata fetch, the scripted outcomes of the successive page fetches, and for
each pass whether its `k`-th batch call raises (`some e`) or succeeds. -/
structure Client where
  catalog : Catalog
  info : Except String PlaylistInfo
  pages : List (Except String (List PlaylistItem))
  removeFails : Nat → Option String
  addFails : Nat → Option String

/-- Run one mutation pass (one `for` loop over the batches): apply each batch
in order; a failing call raises without mutating, aborting the loop. Returns
the final remote state, the list of issued calls (the failing call included),
and the exception if one was raised. -/
def runPass (apply : List PlaylistItem → List String → List PlaylistItem)
    (fails : Nat → Option String) :
    Nat → List PlaylistItem → List (List String) →
    List PlaylistItem × List (List String) × Option String
  | _, st, [] => (st, [], none)
  | k, st, b :: rest =>
    match fails k with
    | some e => (st, [b], some e)
    | none =>
      match runPass apply fails (k + 1) (apply st b) rest with
      | (stf, calls, err) => (stf, b :: calls, err)

/-- What the `try` body did: returned a bool, or raised (message kept). -/
inductive TryOutcome where
  | ret : Bool → TryOutcome
  | exn : String → TryOutcome
deriving DecidableEq

/-- Observable outcome of one `refresh_playlist` run: what the `try` body did,
the final remote playlist state, and the remove/append calls issued. -/
structure RunResult where
  tryOutcome : TryOutcome
  final : List PlaylistItem
  removeCalls : List (List String)
  addCalls : List (List String)
deriving DecidableEq

/-- `refresh_playlist` (lines 59-99), relative to a client script and the
initial remote playlist state `st0`. Any step's exception is recorded as
`TryOutcome.exn`; no exception escapes the method. -/
def refresh_playlist (c : Client) (st0 : List PlaylistItem) (playlist_url : List Char) :
    RunResult :=
  match extract_playlist_id playlist_url with
  | none => ⟨TryOutcome.exn ("Could not extract playlist ID"), st0, [], []⟩
  | some _pid =>
    match c.info with
    | Except.error e => ⟨TryOutcome.exn e, st0, [], []⟩
    | Except.ok _info =>
      match get_playlist_tracks c.pages with
      | Except.error e => ⟨TryOutcome.exn e, st0, [], []⟩
      | Except.ok tracks =>
        if tracks.isEmpty then ⟨TryOutcome.ret false, st0, [], []⟩
        else
          match runPass playlist_remove_all_occurrences_of_items c.removeFails 0 st0
              (batches (tracks.map (fun t => t.uri))) with
          | (st1, rcalls, some e) => ⟨TryOutcome.exn e, st1, rcalls, []⟩
          | (st1, rcalls, none) =>
            match runPass (playlist_add_items c.catalog) c.addFails 0 st1
                (batches (tracks.map (fun t => t.uri))) with
            | (st2, acalls, some e) => ⟨TryOutcome.exn e, st2, rcalls, acalls⟩
            | (st2, acalls, none) => ⟨TryOutcome.ret true, st2, rcalls, acalls⟩

/-- The boolean the method returns: the `try` body's value, or `False` from
the `except` handler. -/
def refresh_result (r : RunResult) : Bool :=
  match r.tryOutcome with
  | TryOutcome.ret b => b
  | TryOutcome.exn _ => false

/-! ## Spec-side observation functions -/

/-- URIs of the eligible entries of a playlist state (those `processItems`
would keep). -/
def eligibleUris (state : List PlaylistItem) : List String :=
  (processItems state).map (fun t => t.uri)

/-- URIs of all entries of a playlist state that carry a track object. -/
def stateUris (state : List PlaylistItem) : List String :=
  state.filterMap (fun item =>
    match item.track with
    | none => none
    | some t => some t.uri)

/-! ## Lemmas about the batch slicing -/

lemma batchesAux_congr {α : Type} (f1 f2 : Nat) (l : List α)
    (h1 : l.length ≤ f1) (h2 : l.length ≤ f2) :
    batchesAux α f1 l = batchesAux α f2 l := by
  induction f1 generalizing f2 l with
  | zero =>
    cases l with
    | nil => cases f2 <;> rfl
    | cons x xs => simp at h1
  | succ g1 ih =>
    cases l with
    | nil => cases f2 <;> rfl
    | cons x xs =>
      cases f2 with
      | zero => simp at h2
      | succ g2 =>
        simp only [batchesAux]
        congr 1
        apply ih
        · simp only [List.length_drop, List.length_cons] at h1 ⊢
          omega
        · simp only [List.length_drop, List.length_cons] at h2 ⊢
          omega

lemma batches_cons_eq {α : Type} (x : α) (xs : List α) :
    batches (x :: xs) = (x :: xs).take 100 :: batches ((x :: xs).drop 100) := by
  show batchesAux α (x :: xs).length (x :: xs) = _
  rw [List.length_cons]
  show (x :: xs).take 100 :: batchesAux α xs.length ((x :: xs).drop 100) = _
  rw [batches]
  congr 1
  apply batchesAux_congr
  · simp only [List.length_drop, List.length_cons]
    omega
  · exact Nat.le_refl _

lemma batches_join_aux {α : Type} :
    ∀ (n : Nat) (l : List α), l.length ≤ n → (batches l).flatten = l := by
  intro n
  induction n with
  | zero =>
    intro l h
    cases l with
    | nil => rfl
    | cons x xs => simp at h
  | succ m ih =>
    intro l h
    cases l with
    | nil => rfl
    | cons x xs =>
      rw [batches_cons_eq, List.flatten_cons, ih ((x :: xs).drop 100)
        (by simp only [List.length_drop, List.length_cons] at h ⊢; omega)]
      exact List.take_append_drop 100 (x :: xs)

lemma batches_flatten {α : Type} (l : List α) : (batches l).flatten = l :=
  batches_join_aux l.length l (Nat.le_refl _)

lemma batches_sizes_aux {α : Type} :
    ∀ (n : Nat) (l : List α), l.length ≤ n → ∀ b ∈ batches l, b.length ≤ 100 := by
  intro n
  induction n with
  | zero =>
    intro l h b hb
    cases l with
    | nil => simp [batches, batchesAux] at hb
    | cons x xs => simp at h
  | succ m ih
  =>
    intro l h b hb
    cases l with
    | nil => simp [batches, batchesAux] at hb
    | cons x xs =>
      rw [batches_cons_eq] at hb
      cases hb with
      | head => simp [List.length_take]
      | tail _ hb2 =>
        exact ih ((x :: xs).drop 100)
          (by simp only [List.length_drop, List.length_cons] at h ⊢; omega) b hb2

lemma batches_sizes {α : Type} (l : List α) : ∀ b ∈ batches l, b.length ≤ 100 :=
  batches_sizes_aux l.length l (Nat.le_refl _)

lemma batches_length_aux {α : Type} :
    ∀ (n : Nat) (l : List α), l.length ≤ n →
      (batches l).length = (l.length + 99) / 100 := by
  intro n
  induction n with
  | zero =>
    intro l h
    cases l with
    | nil => simp [batches, batchesAux]
    | cons x xs => simp at h
  | succ m ih =>
    intro l h
    cases l with
    | nil => simp [batches, batchesAux]
    | cons x xs =>
      rw [batches_cons_eq, List.length_cons, ih ((x :: xs).drop 100)
        (by simp only [List.length_drop, List.length_cons] at h ⊢; omega)]
      simp only [List.length_drop, List.length_cons]
      omega

lemma batches_length {α : Type} (l : List α) :
    (batches l).length = (l.length + 99) / 100 :=
  batches_length_aux l.length l (Nat.le_refl _)

/-! ## Lemmas about `runPass` -/

lemma runPass_ok (apply : List PlaylistItem → List String → List PlaylistItem)
    (fails : Nat → Option String) :
    ∀ (bs : List (List String)) (k : Nat) (st : List PlaylistItem),
      (∀ i, fails (k + i) = none) →
      runPass apply fails k st bs = (bs.foldl apply st, bs, none) := by
  intro bs
  induction bs with
  | nil => intro k st _; rfl
  | cons b rest ih =>
    intro k st h
    have h0 : fails k = none := by simpa using h 0
    have hrec := ih (k + 1) (apply st b) (fun i => by
      have := h (i + 1); rwa [show k + (i + 1) = k + 1 + i by omega] at this)
    simp only [runPass, h0, hrec, List.foldl_cons]

lemma runPass_fail (apply : List PlaylistItem → List String → List PlaylistItem)
    (fails : Nat → Option String) (e : String) :
    ∀ (bs : List (List String)) (j k : Nat) (st : List PlaylistItem),
      j < bs.length →
      (∀ i, i < j → fails (k + i) = none) →
      fails (k + j) = some e →
      runPass apply fails k st bs =
        ((bs.take j).foldl apply st, bs.take (j + 1), some e) := by
  intro bs
  induction bs with
  | nil => intro j k st hj _ _; simp at hj
  | cons b rest ih =>
    intro j k st hj hnone hsome
    cases j with
    | zero =>
      have h0 : fails k = some e := by simpa using hsome
      simp [runPass, h0]
    | succ j' =>
      have h0 : fails k = none := by simpa using hnone 0 (Nat.succ_pos _)
      have hrec := ih j' (k + 1) (apply st b)
        (by simpa using hj)
        (fun i hi => by
          have := hnone (i + 1) (by omega)
          rwa [show k + (i + 1) = k + 1 + i by omega] at this)
        (by rwa [show k + 1 + j' = k + (j' + 1) by omega])
      simp only [runPass, h0, hrec, List.take_succ_cons, List.foldl_cons]

/-! ## Lemmas about the mutation semantics -/

lemma itemMatches_nil (item : PlaylistItem) : itemMatches [] item = false := by
  cases item with
  | mk tr =>
    cases tr with
    | none => rfl
    | some t => simp [itemMatches]

lemma itemMatches_append (u v : List String) (item : PlaylistItem) :
    itemMatches (u ++ v) item = (itemMatches u item || itemMatches v item) := by
  cases item with
  | mk tr =>
    cases tr with
    | none => rfl
    | some t => simp [itemMatches, List.mem_append, Bool.decide_or]

lemma remove_foldl :
    ∀ (bs : List (List String)) (st : List PlaylistItem),
      bs.foldl playlist_remove_all_occurrences_of_items st =
        st.filter (fun item => !itemMatches bs.flatten item) := by
  intro bs
  induction bs with
  | nil =>
    intro st
    simp only [List.foldl_nil, List.flatten_nil]
    have h : ∀ x ∈ st, (!itemMatches [] x) = (fun _ : PlaylistItem => true) x :=
      fun x _ => by rw [itemMatches_nil]; rfl
    rw [List.filter_congr h, List.filter_true]
  | cons b rest ih =>
    intro st
    simp only [List.foldl_cons, List.flatten_cons]
    rw [ih, playlist_remove_all_occurrences_of_items, List.filter_filter]
    apply List.filter_congr
    intro x _
    rw [itemMatches_append]
    cases itemMatches b x <;> cases itemMatches rest.flatten x <;> rfl

lemma add_foldl (cat : Catalog) :
    ∀ (bs : List (List String)) (st : List PlaylistItem),
      bs.foldl (playlist_add_items cat) st = st ++ (bs.flatten).map (addedItem cat) := by
  intro bs
  induction bs with
  | nil => intro st; simp
  | cons b rest ih =>
    intro st
    simp only [List.foldl_cons, List.flatten_cons, List.map_append]
    rw [playlist_add_items, ih, List.append_assoc]

/-! ## Lemmas about enumeration and eligible URIs -/

lemma processItems_append (s t : List PlaylistItem) :
    processItems (s ++ t) = processItems s ++ processItems t := by
  simp [processItems, List.filterMap_append]

lemma get_playlist_tracks_all_ok (pages : List (List PlaylistItem)) :
    get_playlist_tracks (pages.map Except.ok) = Except.ok (processItems pages.flatten) := by
  induction pages with
  | nil => rfl
  | cons p rest ih =>
    simp only [List.map_cons, get_playlist_tracks, ih, List.flatten_cons, processItems_append]

lemma eligibleUris_append (s t : List PlaylistItem) :
    eligibleUris (s ++ t) = eligibleUris s ++ eligibleUris t := by
  simp [eligibleUris, processItems_append]

lemma mem_eligibleUris (st : List PlaylistItem) (item : PlaylistItem) (t : TrackObj)
    (s : String) (hmem : item ∈ st) (ht : item.track = some t) (hid : t.id = some s)
    (hs : s.isEmpty = false) : t.uri ∈ eligibleUris st := by
  rw [eligibleUris, List.mem_map]
  refine ⟨{ id := s, uri := t.uri, name := t.name,
            artists := t.artists.map (fun a => a.name) }, ?_, rfl⟩
  rw [processItems, List.mem_filterMap]
  exact ⟨item, hmem, by rw [ht]; simp [hid, hs]⟩

lemma eligibleUris_filter_out (uris : List String) :
    ∀ (st : List PlaylistItem),
      (∀ item ∈ st, ∀ t s, item.track = some t → t.id = some s →
          s.isEmpty = false → t.uri ∈ uris) →
      eligibleUris (st.filter (fun item => !itemMatches uris item)) = [] := by
  intro st
  induction st with
  | nil => intro _; rfl
  | cons item rest ih =>
    intro h
    have hrest := ih (fun i hi => h i (List.mem_cons_of_mem _ hi))
    cases hitem : item.track with
    | none =>
      cases hkeep : itemMatches uris item with
      | true => simpa [List.filter_cons, hkeep] using hrest
      | false =>
        simp only [List.filter_cons, hkeep, Bool.not_false, if_pos]
        simpa [eligibleUris, processItems, hitem] using hrest
    | some t =>
      cases hid : t.id with
      | none =>
        cases hkeep : itemMatches uris item with
        | true => simpa [List.filter_cons, hkeep] using hrest
        | false =>
          simp only [List.filter_cons, hkeep, Bool.not_false, if_pos]
          simpa [eligibleUris, processItems, hitem, hid] using hrest
      | some s =>
        cases hse : s.isEmpty with
        | true =>
          cases hkeep : itemMatches uris item with
          | true => simpa [List.filter_cons, hkeep] using hrest
          | false =>
            simp only [List.filter_cons, hkeep, Bool.not_false, if_pos]
            simpa [eligibleUris, processItems, hitem, hid, hse] using hrest
        | false =>
          have huri : t.uri ∈ uris :=
            h item (List.mem_cons_self _ _) t s hitem hid hse
          have hkeep : itemMatches uris item = true := by
            rw [itemMatches, hitem]
            exact decide_eq_true huri
          simpa [List.filter_cons, hkeep] using hrest

lemma eligibleUris_added (cat : Catalog) :
    ∀ (uris : List String),
      (∀ u ∈ uris, (cat.trackId u).isEmpty = false) →
      eligibleUris (uris.map (addedItem cat)) = uris := by
  intro uris
  induction uris with
  | nil => intro _; rfl
  | cons u rest ih =>
    intro h
    have hu : (cat.trackId u).isEmpty = false := h u (List.mem_cons_self _ _)
    have hrest := ih (fun v hv => h v (List.mem_cons_of_mem _ hv))
    simp only [List.map_cons]
    rw [show eligibleUris (addedItem cat u :: rest.map (addedItem cat)) =
        eligibleUris [addedItem cat u] ++ eligibleUris (rest.map (addedItem cat)) from
      eligibleUris_append [addedItem cat u] _, hrest]
    simp [eligibleUris, processItems, addedItem, hu]

/-! ## Unfolding lemmas for `refresh_playlist` -/

lemma refresh_success_eq (c : Client) (st0 : List PlaylistItem) (url : List Char)
    (pid : List Char) (pinfo : PlaylistInfo) (tracks : List Track)
    (hurl : extract_playlist_id url = some pid)
    (hinfo : c.info = Except.ok pinfo)
    (hgpt : get_playlist_tracks c.pages = Except.ok tracks)
    (hne : tracks ≠ [])
    (hrf : ∀ k, c.removeFails k = none)
    (haf : ∀ k, c.addFails k = none) :
    refresh_playlist c st0 url =
      ⟨TryOutcome.ret true,
       (st0.filter (fun item => !itemMatches (tracks.map (fun t => t.uri)) item))
         ++ (tracks.map (fun t => t.uri)).map (addedItem c.catalog),
       batches (tracks.map (fun t => t.uri)),
       batches (tracks.map (fun t => t.uri))⟩ := by
  have hie : tracks.isEmpty = false := by
    cases tracks with
    | nil => exact absurd rfl hne
    | cons a l => rfl
  have hrun1 := runPass_ok playlist_remove_all_occurrences_of_items c.removeFails
    (batches (tracks.map (fun t => t.uri))) 0 st0 (fun i => hrf (0 + i))
  have hrun2 := runPass_ok (playlist_add_items c.catalog) c.addFails
    (batches (tracks.map (fun t => t.uri))) 0
    ((batches (tracks.map (fun t => t.uri))).foldl
      playlist_remove_all_occurrences_of_items st0)
    (fun i => haf (0 + i))
  unfold refresh_playlist
  rw [hurl, hinfo, hgpt]
  simp only [hie, Bool.false_eq_true, if_false, hrun1, hrun2]
  rw [remove_foldl, batches_flatten, add_foldl, batches_flatten]

lemma refresh_badurl_eq (c : Client) (st0 : List PlaylistItem) (url : List Char)
    (hurl : extract_playlist_id url = none) :
    refresh_playlist c st0 url =
      ⟨TryOutcome.exn ("Could not extract playlist ID"), st0, [], []⟩ := by
  unfold refresh_playlist
  rw [hurl]

lemma refresh_info_error_eq (c : Client) (st0 : List PlaylistItem) (url : List Char)
    (pid : List Char) (e : String)
    (hurl : extract_playlist_id url = some pid)
    (hinfo : c.info = Except.error e) :
    refresh_playlist c st0 url = ⟨TryOutcome.exn e, st0, [], []⟩ := by
  unfold refresh_playlist
  rw [hurl, hinfo]

lemma refresh_pages_error_eq (c : Client) (st0 : List PlaylistItem) (url : List Char)
    (pid : List Char) (pinfo : PlaylistInfo) (e : String)
    (hurl : extract_playlist_id url = some pid)
    (hinfo : c.info = Except.ok pinfo)
    (hgpt : get_playlist_tracks c.pages = Except.error e) :
    refresh_playlist c st0 url = ⟨TryOutcome.exn e, st0, [], []⟩ := by
  unfold refresh_playlist
  rw [hurl, hinfo, hgpt]

lemma refresh_empty_eq (c : Client) (st0 : List PlaylistItem) (url : List Char)
    (pid : List Char) (pinfo : PlaylistInfo)
    (hurl : extract_playlist_id url = some pid)
    (hinfo : c.info = Except.ok pinfo)
    (hgpt : get_playlist_tracks c.pages = Except.ok []) :
    refresh_playlist c st0 url = ⟨TryOutcome.ret false, st0, [], []⟩ := by
  unfold refresh_playlist
  rw [hurl, hinfo, hgpt]
  rfl

lemma refresh_removefail_eq (c : Client) (st0 : List PlaylistItem) (url : List Char)
    (pid : List Char) (pinfo : PlaylistInfo) (tracks : List Track) (j : Nat) (e : String)
    (hurl : extract_playlist_id url = some pid)
    (hinfo : c.info = Except.ok pinfo)
    (hgpt : get_playlist_tracks c.pages = Except.ok tracks)
    (hne : tracks ≠ [])
    (hj : j < (batches (tracks.map (fun t => t.uri))).length)
    (hnone : ∀ i, i < j → c.removeFails i = none)
    (hsome : c.removeFails j = some e) :
    refresh_playlist c st0 url =
      ⟨TryOutcome.exn e,
       ((batches (tracks.map (fun t => t.uri))).take j).foldl
         playlist_remove_all_occurrences_of_items st0,
       (batches (tracks.map (fun t => t.uri))).take (j + 1),
       []⟩ := by
  have hie : tracks.isEmpty = false := by
    cases tracks with
    | nil => exact absurd rfl hne
    | cons a l => rfl
  have hrun1 := runPass_fail playlist_remove_all_occurrences_of_items c.removeFails e
    (batches (tracks.map (fun t => t.uri))) j 0 st0 hj
    (fun i hi => by simpa using hnone i hi) (by simpa using hsome)
  unfold refresh_playlist
  rw [hurl, hinfo, hgpt]
  simp only [hie, Bool.false_eq_true, if_false, hrun1]

lemma refresh_addfail_eq (c : Client) (st0 : List PlaylistItem) (url : List Char)
    (pid : List Char) (pinfo : PlaylistInfo) (tracks : List Track) (j : Nat) (e : String)
    (hurl : extract_playlist_id url = some pid)
    (hinfo : c.info = Except.ok pinfo)
    (hgpt : get_playlist_tracks c.pages = Except.ok tracks)
    (hne : tracks ≠ [])
    (hrf : ∀ k, c.removeFails k = none)
    (hj : j < (batches (tracks.map (fun t => t.uri))).length)
    (hnone : ∀ i, i < j → c.addFails i = none)
    (hsome : c.addFails j = some e) :
    refresh_playlist c st0 url =
      ⟨TryOutcome.exn e,
       (((batches (tracks.map (fun t => t.uri))).take j).foldl
         (playlist_add_items c.catalog)
         ((batches (tracks.map (fun t => t.uri))).foldl
           playlist_remove_all_occurrences_of_items st0)),
       batches (tracks.map (fun t => t.uri)),
       (batches (tracks.map (fun t => t.uri))).take (j + 1)⟩ := by
  have hie : tracks.isEmpty = false := by
    cases tracks with
    | nil => exact absurd rfl hne
    | cons a l => rfl
  have hrun1 := runPass_ok playlist_remove_all_occurrences_of_items c.removeFails
    (batches (tracks.map (fun t => t.uri))) 0 st0 (fun i => hrf (0 + i))
  have hrun2 := runPass_fail (playlist_add_items c.catalog) c.addFails e
    (batches (tracks.map (fun t => t.uri))) j 0
    ((batches (tracks.map (fun t => t.uri))).foldl
      playlist_remove_all_occurrences_of_items st0) hj
    (fun i hi => by simpa using hnone i hi) (by simpa using hsome)
  unfold refresh_playlist
  rw [hurl, hinfo, hgpt]
  simp only [hie, Bool.false_eq_true, if_false, hrun1, hrun2]

/-! ## Lemmas about `search` (the `re.search` model) -/

lemma dropWhile_head_false {α : Type} (p : α → Bool) :
    ∀ (l : List α) (d : α) (t : List α), l.dropWhile p = d :: t → p d = false := by
  intro l
  induction l with
  | nil => intro d t h; simp at h
  | cons x xs ih =>
    intro d t h
    rw [List.dropWhile_cons] at h
    by_cases hx : p x = true
    · rw [if_pos hx] at h
      exact ih d t h
    · rw [if_neg hx] at h
      injection h with h1 _
      rw [← h1]
      exact Bool.not_eq_true _ |>.mp hx

lemma matchAt_append (pat rest : List Char) (htw : rest.takeWhile isAlnum ≠ []) :
    matchAt pat (pat ++ rest) = some (rest.takeWhile isAlnum) := by
  have hie : (rest.takeWhile isAlnum).isEmpty = false := by
    cases h' : rest.takeWhile isAlnum with
    | nil => exact absurd h' htw
    | cons a t => rfl
  rw [matchAt, if_pos (List.isPrefixOf_iff_prefix.mpr ⟨rest, rfl⟩), List.drop_left, hie]
  simp

lemma search_self (pat rest : List Char) (hpat : pat ≠ [])
    (htw : rest.takeWhile isAlnum ≠ []) :
    search pat (pat ++ rest) = some (rest.takeWhile isAlnum) := by
  cases hp : pat with
  | nil => exact absurd hp hpat
  | cons p ps =>
    subst hp
    rw [List.cons_append]
    simp only [search]
    rw [← List.cons_append, matchAt_append _ _ htw]

lemma search_sound (pat : List Char) :
    ∀ (s r : List Char), search pat s = some r →
      r ≠ [] ∧ (∀ c ∈ r, isAlnum c = true) ∧
      ∃ pre post, s = pre ++ pat ++ r ++ post ∧
        (∀ d t, post = d :: t → isAlnum d = false) := by
  intro s
  induction s with
  | nil => intro r h; simp [search] at h
  | cons x xs ih =>
    intro r h
    simp only [search] at h
    cases hm : matchAt pat (x :: xs) with
    | some r2 =>
      rw [hm] at h
      simp only [Option.some.injEq] at h
      subst h
      rw [matchAt] at hm
      by_cases hp : pat.isPrefixOf (x :: xs) = true
      · rw [if_pos hp] at hm
        obtain ⟨rest, hrest⟩ := List.isPrefixOf_iff_prefix.mp hp
        rw [← hrest, List.drop_left] at hm
        by_cases hie : (rest.takeWhile isAlnum).isEmpty = true
        · rw [if_pos hie] at hm
          exact absurd hm (by simp)
        · rw [if_neg hie] at hm
          simp only [Option.some.injEq] at hm
          refine ⟨?_, ?_, [], rest.dropWhile isAlnum, ?_, ?_⟩
          · rw [← hm]
            intro hc
            rw [hc] at hie
            exact hie rfl
          · intro c hc
            rw [← hm] at hc
            exact List.mem_takeWhile_imp hc
          · rw [List.nil_append, ← hrest, ← hm]
            rw [List.append_assoc, List.takeWhile_append_dropWhile]
          · intro d t hdt
            exact dropWhile_head_false isAlnum rest d t hdt
      · rw [if_neg hp] at hm
        exact absurd hm (by simp)
    | none =>
      rw [hm] at h
      obtain ⟨h1, h2, pre, post, heq, hpost⟩ := ih r h
      exact ⟨h1, h2, x :: pre, post, by rw [heq]; simp, hpost⟩

lemma search_exists (pat : List Char) (hpat : pat ≠ []) :
    ∀ (pre : List Char) (c : Char) (rest : List Char), isAlnum c = true →
      ∃ r, search pat (pre ++ (pat ++ (c :: rest))) = some r := by
  intro pre
  induction pre with
  | nil =>
    intro c rest hc
    rw [List.nil_append]
    refine ⟨(c :: rest).takeWhile isAlnum, ?_⟩
    apply search_self pat (c :: rest) hpat
    rw [List.takeWhile_cons, hc]
    simp
  | cons y pre' ih =>
    intro c rest hc
    rw [List.cons_append]
    cases hm : matchAt pat (y :: (pre' ++ (pat ++ (c :: rest)))) with
    | some r => exact ⟨r, by simp only [search, hm]⟩
    | none =>
      obtain ⟨r, hr⟩ := ih c rest hc
      exact ⟨r, by simp only [search, hm]; exact hr⟩

lemma search_eq_none_of_count (pat : List Char) (ch : Char) :
    ∀ (s : List Char), s.count ch < pat.count ch → search pat s = none := by
  intro s
  induction s with
  | nil => intro _; rfl
  | cons x xs ih =>
    intro h
    have hm : matchAt pat (x :: xs) = none := by
      rw [matchAt, if_neg ?_]
      intro hp
      have hle : pat.count ch ≤ (x :: xs).count ch :=
        ((List.isPrefixOf_iff_prefix.mp hp).sublist).count_le ch
      omega
    simp only [search, hm]
    apply ih
    have h2 : xs.count ch ≤ (x :: xs).count ch := by
      rw [List.count_cons]
      exact Nat.le_add_right _ _
    omega

/-! ## The three reference grammars (spec §4.1): canonical well-formed forms -/

/-- Service URI scheme form of a playlist reference. -/
def uriForm (id : List Char) : List Char := ("spotify:playlist:").toList ++ id

/-- HTTPS web-link form with the `open.` host. -/
def webForm1 (id : List Char) : List Char :=
  ("https://open.spotify.com/playlist/").toList ++ id

/-- HTTPS web-link form without the `open.` host. -/
def webForm2 (id : List Char) : List Char :=
  ("https://spotify.com/playlist/").toList ++ id

lemma count_eq_zero_of_alnum (id : List Char) (ha : ∀ c ∈ id, isAlnum c = true)
    (ch : Char) (hch : isAlnum ch = false) : id.count ch = 0 :=
  List.count_eq_zero.mpr (fun hmem => by rw [ha ch hmem] at hch; cases hch)

lemma search_p1_uriForm (id : List Char) (hne : id ≠ [])
    (ha : ∀ c ∈ id, isAlnum c = true) :
    search (("spotify:playlist:").toList) (uriForm id) = some id := by
  have htw : id.takeWhile isAlnum = id := List.takeWhile_eq_self_iff.mpr ha
  rw [uriForm, search_self _ id (by decide) (by rw [htw]; exact hne), htw]

lemma search_p2_uriForm (id : List Char) (ha : ∀ c ∈ id, isAlnum c = true) :
    search (("open.spotify.com/playlist/").toList) (uriForm id) = none := by
  apply search_eq_none_of_count _ '.'
  rw [uriForm, List.count_append, count_eq_zero_of_alnum id ha '.' (by decide)]
  decide

lemma search_p3_uriForm (id : List Char) (ha : ∀ c ∈ id, isAlnum c = true) :
    search (("spotify.com/playlist/").toList) (uriForm id) = none := by
  apply search_eq_none_of_count _ '.'
  rw [uriForm, List.count_append, count_eq_zero_of_alnum id ha '.' (by decide)]
  decide

lemma search_p1_webForm1 (id : List Char) (ha : ∀ c ∈ id, isAlnum c = true) :
    search (("spotify:playlist:").toList) (webForm1 id) = none := by
  apply search_eq_none_of_count _ ':'
  rw [webForm1, List.count_append, count_eq_zero_of_alnum id ha ':' (by decide)]
  decide

lemma search_p2_webForm1 (id : List Char) (hne : id ≠ [])
    (ha : ∀ c ∈ id, isAlnum c = true) :
    search (("open.spotify.com/playlist/").toList) (webForm1 id) = some id := by
  have htw : id.takeWhile isAlnum = id := List.takeWhile_eq_self_iff.mpr ha
  have hskip : search (("open.spotify.com/playlist/").toList) (webForm1 id)
      = search (("open.spotify.com/playlist/").toList)
          ((("open.spotify.com/playlist/").toList) ++ id) := rfl
  rw [hskip, search_self _ id (by decide) (by rw [htw]; exact hne), htw]

lemma search_p3_webForm1 (id : List Char) (hne : id ≠ [])
    (ha : ∀ c ∈ id, isAlnum c = true) :
    search (("spotify.com/playlist/").toList) (webForm1 id) = some id := by
  have htw : id.takeWhile isAlnum = id := List.takeWhile_eq_self_iff.mpr ha
  have hskip : search (("spotify.com/playlist/").toList) (webForm1 id)
      = search (("spotify.com/playlist/").toList)
          ((("spotify.com/playlist/").toList) ++ id) := rfl
  rw [hskip, search_self _ id (by decide) (by rw [htw]; exact hne), htw]

lemma search_p1_webForm2 (id : List Char) (ha : ∀ c ∈ id, isAlnum c = true) :
    search (("spotify:playlist:").toList) (webForm2 id) = none := by
  apply search_eq_none_of_count _ ':'
  rw [webForm2, List.count_append, count_eq_zero_of_alnum id ha ':' (by decide)]
  decide

lemma search_p2_webForm2 (id : List Char) (ha : ∀ c ∈ id, isAlnum c = true) :
    search (("open.spotify.com/playlist/").toList) (webForm2 id) = none := by
  apply search_eq_none_of_count _ '.'
  rw [webForm2, List.count_append, count_eq_zero_of_alnum id ha '.' (by decide)]
  decide

lemma search_p3_webForm2 (id : List Char) (hne : id ≠ [])
    (ha : ∀ c ∈ id, isAlnum c = true) :
    search (("spotify.com/playlist/").toList) (webForm2 id) = some id := by
  have htw : id.takeWhile isAlnum = id := List.takeWhile_eq_self_iff.mpr ha
  have hskip : search (("spotify.com/playlist/").toList) (webForm2 id)
      = search (("spotify.com/playlist/").toList)
          ((("spotify.com/playlist/").toList) ++ id) := rfl
  rw [hskip, search_self _ id (by decide) (by rw [htw]; exact hne), htw]

lemma extract_uriForm (id : List Char) (hne : id ≠ [])
    (ha : ∀ c ∈ id, isAlnum c = true) :
    extract_playlist_id (uriForm id) = some id := by
  simp only [extract_playlist_id, patterns, List.findSome?_cons,
    search_p1_uriForm id hne ha]

lemma extract_webForm1 (id : List Char) (hne : id ≠ [])
    (ha : ∀ c ∈ id, isAlnum c = true) :
    extract_playlist_id (webForm1 id) = some id := by
  simp only [extract_playlist_id, patterns, List.findSome?_cons,
    search_p1_webForm1 id ha, search_p2_webForm1 id hne ha]

lemma extract_webForm2 (id : List Char) (hne : id ≠ [])
    (ha : ∀ c ∈ id, isAlnum c = true) :
    extract_playlist_id (webForm2 id) = some id := by
  simp only [extract_playlist_id, patterns, List.findSome?_cons,
    search_p1_webForm2 id ha, search_p2_webForm2 id ha, search_p3_webForm2 id hne ha]

lemma search_forms_agree (id : List Char) (hne : id ≠ [])
    (ha : ∀ c ∈ id, isAlnum c = true) :
    ∀ p ∈ patterns, ∀ f ∈ [uriForm id, webForm1 id, webForm2 id],
      ∀ r, search p f = some r → r = id := by
  intro p hp f hf r hr
  simp only [patterns, List.mem_cons, List.not_mem_nil, or_false] at hp
  simp only [List.mem_cons, List.not_mem_nil, or_false] at hf
  rcases hp with rfl | rfl | rfl <;> rcases hf with rfl | rfl | rfl
  · rw [search_p1_uriForm id hne ha] at hr; exact (Option.some.injEq _ _ ▸ hr).symm ▸ rfl
  · rw [search_p1_webForm1 id ha] at hr; cases hr
  · rw [search_p1_webForm2 id ha] at hr; cases hr
  · rw [search_p2_uriForm id ha] at hr; cases hr
  · rw [search_p2_webForm1 id hne ha] at hr
    injection hr with h; exact h.symm
  · rw [search_p2_webForm2 id ha] at hr; cases hr
  · rw [search_p3_uriForm id ha] at hr; cases hr
  · rw [search_p3_webForm1 id hne ha] at hr
    injection hr with h; exact h.symm
  · rw [search_p3_webForm2 id hne ha] at hr
    injection hr with h; exact h.symm

/-! ## Helpers: issued batches come from the computed batch partition -/

lemma runPass_calls_subset (apply : List PlaylistItem → List String → List PlaylistItem)
    (fails : Nat → Option String) :
    ∀ (bs : List (List String)) (k : Nat) (st : List PlaylistItem) (b : List String),
      b ∈ (runPass apply fails k st bs).2.1 → b ∈ bs := by
  intro bs
  induction bs with
  | nil => intro k st b hb; simp [runPass] at hb
  | cons b0 rest ih =>
    intro k st b hb
    simp only [runPass] at hb
    cases hf : fails k with
    | some e =>
      rw [hf] at hb
      simp at hb
      rw [hb]
      exact List.mem_cons_self _ _
    | none =>
      rw [hf] at hb
      cases hrp : runPass apply fails (k + 1) (apply st b0) rest with
      | mk stf r2 =>
        rw [hrp] at hb
        cases hb with
        | head => exact List.mem_cons_self _ _
        | tail _ hb2 =>
          refine List.mem_cons_of_mem _ (ih (k + 1) (apply st b0) b ?_)
          rw [hrp]
          exact hb2

lemma refresh_calls_mem (c : Client) (st0 : List PlaylistItem) (url : List Char)
    (tracks : List Track) (hgpt : get_playlist_tracks c.pages = Except.ok tracks) :
    ∀ b, b ∈ (refresh_playlist c st0 url).removeCalls
          ++ (refresh_playlist c st0 url).addCalls →
      b ∈ batches (tracks.map (fun t => t.uri)) := by
  intro b hb
  cases hext : extract_playlist_id url with
  | none =>
    rw [refresh_badurl_eq c st0 url hext] at hb
    simp at hb
  | some pid =>
    cases hinfo : c.info with
    | error e =>
      rw [refresh_info_error_eq c st0 url pid e hext hinfo] at hb
      simp at hb
    | ok pinfo =>
      cases tracks with
      | nil =>
        rw [refresh_empty_eq c st0 url pid pinfo hext hinfo hgpt] at hb
        simp at hb
      | cons tr rest =>
        have heq : refresh_playlist c st0 url =
            (match runPass playlist_remove_all_occurrences_of_items c.removeFails 0 st0
                (batches ((tr :: rest).map (fun t => t.uri))) with
             | (st1, rcalls, some e) =>
               (⟨TryOutcome.exn e, st1, rcalls, []⟩ : RunResult)
             | (st1, rcalls, none) =>
               match runPass (playlist_add_items c.catalog) c.addFails 0 st1
                   (batches ((tr :: rest).map (fun t => t.uri))) with
               | (st2, acalls, some e) => ⟨TryOutcome.exn e, st2, rcalls, acalls⟩
               | (st2, acalls, none) => ⟨TryOutcome.ret true, st2, rcalls, acalls⟩) := by
          unfold refresh_playlist
          rw [hext, hinfo, hgpt]
          rfl
        rw [heq] at hb
        cases hr1 : runPass playlist_remove_all_occurrences_of_items c.removeFails 0 st0
            (batches ((tr :: rest).map (fun t => t.uri))) with
        | mk st1 p2 =>
          cases p2 with
          | mk rcalls rerr =>
            rw [hr1] at hb
            have hsub1 : b ∈ rcalls → b ∈ batches ((tr :: rest).map (fun t => t.uri)) := by
              intro hbr
              apply runPass_calls_subset playlist_remove_all_occurrences_of_items
                c.removeFails (batches ((tr :: rest).map (fun t => t.uri))) 0 st0 b
              rw [hr1]
              exact hbr
            cases rerr with
            | some e =>
              have hb2 : b ∈ rcalls ++ ([] : List (List String)) := hb
              rw [List.append_nil] at hb2
              exact hsub1 hb2
            | none =>
              have hb3 : b ∈ (match runPass (playlist_add_items c.catalog) c.addFails 0 st1
                    (batches ((tr :: rest).map (fun t : Track => t.uri))) with
                  | (st2, acalls, some e) =>
                    (⟨TryOutcome.exn e, st2, rcalls, acalls⟩ : RunResult)
                  | (st2, acalls, none) =>
                    ⟨TryOutcome.ret true, st2, rcalls, acalls⟩).removeCalls
                  ++ (match runPass (playlist_add_items c.catalog) c.addFails 0 st1
                    (batches ((tr :: rest).map (fun t : Track => t.uri))) with
                  | (st2, acalls, some e) =>
                    (⟨TryOutcome.exn e, st2, rcalls, acalls⟩ : RunResult)
                  | (st2, acalls, none) =>
                    ⟨TryOutcome.ret true, st2, rcalls, acalls⟩).addCalls := hb
              cases hr2 : runPass (playlist_add_items c.catalog) c.addFails 0 st1
                  (batches ((tr :: rest).map (fun t => t.uri))) with
              | mk st2 q2 =>
                cases q2 with
                | mk acalls aerr =>
                  rw [hr2] at hb3
                  have hsub2 : b ∈ acalls →
                      b ∈ batches ((tr :: rest).map (fun t => t.uri)) := by
                    intro hba
                    apply runPass_calls_subset (playlist_add_items c.catalog)
                      c.addFails (batches ((tr :: rest).map (fun t => t.uri))) 0 st1 b
                    rw [hr2]
                    exact hba
                  cases aerr with
                  | some e =>
                    have hb2 : b ∈ rcalls ++ acalls := hb3
                    rcases List.mem_append.mp hb2 with h1 | h2
                    · exact hsub1 h1
                    · exact hsub2 h2
                  | none =>
                    have hb2 : b ∈ rcalls ++ acalls := hb3
                    rcases List.mem_append.mp hb2 with h1 | h2
                    · exact hsub1 h1
                    · exact hsub2 h2

/-! ## Helpers: eligibility of enumerated tracks -/

/-- Spec-side eligibility of a playlist entry: it has a track object with a
truthy (present, non-empty) id. -/
def isEligible (item : PlaylistItem) : Bool :=
  match item.track with
  | none => false
  | some t => truthyId t.id

lemma processItems_mem :
    ∀ (items : List PlaylistItem) (tr : Track), tr ∈ processItems items →
      ∃ item ∈ items, ∃ t, item.track = some t ∧
        (∃ s, t.id = some s ∧ s.isEmpty = false) ∧ t.uri = tr.uri := by
  intro items tr htr
  rw [processItems, List.mem_filterMap] at htr
  obtain ⟨item, hmem, hf⟩ := htr
  cases ht : item.track with
  | none =>
    rw [ht] at hf
    exact absurd (show (none : Option Track) = some tr from hf) (by simp)
  | some t =>
    rw [ht] at hf
    have hf2 : (match t.id with
        | none => none
        | some i =>
          if i.isEmpty = true then none
          else some { id := i, uri := t.uri, name := t.name,
                      artists := t.artists.map (fun a => a.name) }) = some tr := hf
    cases hid : t.id with
    | none =>
      rw [hid] at hf2
      exact absurd (show (none : Option Track) = some tr from hf2) (by simp)
    | some s =>
      rw [hid] at hf2
      have hf3 : (if s.isEmpty = true then none
          else some { id := s, uri := t.uri, name := t.name,
                      artists := t.artists.map (fun a => a.name) }) = some tr := hf2
      by_cases hse : s.isEmpty = true
      · rw [if_pos hse] at hf3
        exact absurd (show (none : Option Track) = some tr from hf3) (by simp)
      · rw [if_neg hse] at hf3
        injection hf3 with hf4
        exact ⟨item, hmem, t, ht, ⟨s, hid, Bool.not_eq_true _ |>.mp hse⟩, by rw [← hf4]⟩

lemma processItems_length :
    ∀ (items : List PlaylistItem),
      (processItems items).length = items.countP isEligible := by
  intro items
  induction items with
  | nil => rfl
  | cons item rest ih =>
    rw [List.countP_cons]
    cases ht : item.track with
    | none =>
      have hel : isEligible item = false := by rw [isEligible, ht]
      have hstep : processItems (item :: rest) = processItems rest := by
        simp only [processItems, List.filterMap_cons, ht]
      rw [hstep, hel, ih]
      simp
    | some t =>
      cases hid : t.id with
      | none =>
        have hel : isEligible item = false := by
          rw [isEligible, ht]
          show truthyId t.id = false
          rw [hid]
          rfl
        have hstep : processItems (item :: rest) = processItems rest := by
          simp only [processItems, List.filterMap_cons, ht, hid]
        rw [hstep, hel, ih]
        simp
      | some s =>
        by_cases hse : s.isEmpty = true
        · have hel : isEligible item = false := by
            rw [isEligible, ht]
            show truthyId t.id = false
            rw [hid]
            show (!s.isEmpty) = false
            rw [hse]
            rfl
          have hstep : processItems (item :: rest) = processItems rest := by
            simp only [processItems, List.filterMap_cons, ht, hid, hse, if_true]
          rw [hstep, hel, ih]
          simp
        · have hse2 : s.isEmpty = false := Bool.not_eq_true _ |>.mp hse
          have hel : isEligible item = true := by
            rw [isEligible, ht]
            show truthyId t.id = true
            rw [hid]
            show (!s.isEmpty) = true
            rw [hse2]
            rfl
          have hstep : processItems (item :: rest) =
              { id := s, uri := t.uri, name := t.name,
                artists := t.artists.map (fun a => a.name) } :: processItems rest := by
            simp only [processItems, List.filterMap_cons, ht, hid, hse2,
              Bool.false_eq_true, if_false]
          rw [hstep, hel, List.length_cons, ih]
          simp

/-! ## Concrete fixtures for witnesses and counterexamples -/

/-- A catalog assigning every URI a fixed non-empty id. -/
def fixCat : Catalog := ⟨fun _ => ("tid"), fun _ => ("tname"), fun _ => []⟩

def fixInfo : PlaylistInfo := ⟨("pl"), ("own")⟩

/-- An ordinary eligible track entry. -/
def itemA : PlaylistItem := ⟨some ⟨some ("idA"), ("uriA"), ("A"), []⟩⟩

/-- A second eligible track entry. -/
def itemB : PlaylistItem := ⟨some ⟨some ("idB"), ("uriB"), ("B"), []⟩⟩

/-- A local-file entry: no stable id, hence not eligible. -/
def itemL : PlaylistItem := ⟨some ⟨none, ("uriL"), ("L"), []⟩⟩

def fixUrl : List Char := ("spotify:playlist:x").toList

def fixPid : List Char := ("x").toList

def okClient2 : Client :=
  ⟨fixCat, Except.ok fixInfo, [Except.ok [itemA, itemB]], fun _ => none, fun _ => none⟩

def emptyClient : Client :=
  ⟨fixCat, Except.ok fixInfo, [Except.ok [itemL]], fun _ => none, fun _ => none⟩

def errClient : Client :=
  ⟨fixCat, Except.error ("boom"), [], fun _ => none, fun _ => none⟩

def pageErrClient : Client :=
  ⟨fixCat, Except.ok fixInfo, [Except.ok [itemA], Except.error ("page fail")],
   fun _ => none, fun _ => none⟩

def removeFailClient : Client :=
  ⟨fixCat, Except.ok fixInfo, [Except.ok [itemA, itemB]],
   fun k => if k = 0 then some ("rm fail") else none, fun _ => none⟩

def addFailClient : Client :=
  ⟨fixCat, Except.ok fixInfo, [Except.ok [itemA, itemB]],
   fun _ => none, fun k => if k = 0 then some ("add fail") else none⟩

/-- A playlist holding a local-file entry next to an eligible one. -/
def localClient : Client :=
  ⟨fixCat, Except.ok fixInfo, [Except.ok [itemL, itemA]], fun _ => none, fun _ => none⟩

/-! ## Claims -/

/-- C1 (amended): when resolution, metadata fetch and enumeration succeed, the
snapshot matches the remote state, both mutation passes complete without error
and the catalog assigns non-empty ids, the multiset of *eligible* track URIs
after `refresh_playlist` equals the multiset of eligible track URIs before;
entries without a stable id are not part of the refresh and may remain, so the
full playlist multiset can strictly contain the eligible one. -/
theorem claim_C1 (c : Client) (st0 : List PlaylistItem) (url pid : List Char)
    (pinfo : PlaylistInfo)
    (hurl : extract_playlist_id url = some pid)
    (hinfo : c.info = Except.ok pinfo)
    (hgpt : get_playlist_tracks c.pages = Except.ok (processItems st0))
    (hne : processItems st0 ≠ [])
    (hrf : ∀ k, c.removeFails k = none)
    (haf : ∀ k, c.addFails k = none)
    (hcat : ∀ u, ((c.catalog.trackId u).isEmpty) = false) :
    (refresh_playlist c st0 url).tryOutcome = TryOutcome.ret true
    ∧ List.Perm (eligibleUris (refresh_playlist c st0 url).final) (eligibleUris st0) := by
  rw [refresh_success_eq c st0 url pid pinfo (processItems st0) hurl hinfo hgpt hne hrf haf]
  refine ⟨rfl, ?_⟩
  show List.Perm (eligibleUris
    ((st0.filter (fun item =>
        !itemMatches ((processItems st0).map (fun t => t.uri)) item))
      ++ ((processItems st0).map (fun t => t.uri)).map (addedItem c.catalog)))
    (eligibleUris st0)
  rw [eligibleUris_append,
    eligibleUris_filter_out ((processItems st0).map (fun t => t.uri)) st0
      (fun item hmem t s ht hid hs => by
        have hin := mem_eligibleUris st0 item t s hmem ht hid hs
        rwa [eligibleUris] at hin),
    eligibleUris_added c.catalog ((processItems st0).map (fun t => t.uri))
      (fun u _ => hcat u),
    List.nil_append]
  exact List.Perm.refl _

/-- C1 counterexample: with a local-file entry present both passes complete
without error, yet the playlist's full URI multiset after the refresh is not a
permutation of the eligible URI multiset before (the local entry survives). -/
theorem claim_C1_counterexample :
    refresh_result (refresh_playlist localClient [itemL, itemA] fixUrl) = true
    ∧ ¬ List.Perm (stateUris (refresh_playlist localClient [itemL, itemA] fixUrl).final)
        (eligibleUris [itemL, itemA]) := by decide

/-- C1 witness: a concrete two-track playlist is refreshed and its eligible
URI multiset is preserved. -/
theorem claim_C1_witness :
    (refresh_playlist okClient2 [itemA, itemB] fixUrl).tryOutcome = TryOutcome.ret true
    ∧ List.Perm (eligibleUris (refresh_playlist okClient2 [itemA, itemB] fixUrl).final)
        (eligibleUris [itemA, itemB]) :=
  claim_C1 okClient2 [itemA, itemB] fixUrl fixPid fixInfo (by decide) rfl rfl
    (by decide) (fun _ => rfl) (fun _ => rfl) (fun _ => rfl)

/-- C2 (amended): with zero eligible tracks, `refresh_playlist` issues no
mutation call and leaves the playlist untouched, but it returns `False` — the
same boolean failure result an error produces (the CLI exits 1) — not an
outcome distinct from failure. -/
theorem claim_C2 (c : Client) (st0 : List PlaylistItem) (url pid : List Char)
    (pinfo : PlaylistInfo)
    (hurl : extract_playlist_id url = some pid)
    (hinfo : c.info = Except.ok pinfo)
    (hgpt : get_playlist_tracks c.pages = Except.ok []) :
    (refresh_playlist c st0 url).tryOutcome = TryOutcome.ret false
    ∧ refresh_result (refresh_playlist c st0 url) = false
    ∧ (refresh_playlist c st0 url).removeCalls = []
    ∧ (refresh_playlist c st0 url).addCalls = []
    ∧ (refresh_playlist c st0 url).final = st0 := by
  rw [refresh_empty_eq c st0 url pid pinfo hurl hinfo hgpt]
  exact ⟨rfl, rfl, rfl, rfl, rfl⟩

/-- C2 counterexample: a playlist whose only entry is a local file (zero
eligible tracks) makes `refresh` return `false` — exactly the boolean a
genuinely failing run (metadata fetch error) returns — so the result is not
distinct from failure, although indeed no mutation call is issued. -/
theorem claim_C2_counterexample :
    refresh_result (refresh_playlist emptyClient [itemL] fixUrl) = false
    ∧ (refresh_playlist emptyClient [itemL] fixUrl).removeCalls = []
    ∧ (refresh_playlist emptyClient [itemL] fixUrl).addCalls = []
    ∧ refresh_result (refresh_playlist errClient [itemL] fixUrl) = false := by decide

/-- C2 witness: the amended statement at a concrete zero-eligible playlist. -/
theorem claim_C2_witness :
    (refresh_playlist emptyClient [itemL] fixUrl).tryOutcome = TryOutcome.ret false
    ∧ refresh_result (refresh_playlist emptyClient [itemL] fixUrl) = false
    ∧ (refresh_playlist emptyClient [itemL] fixUrl).removeCalls = []
    ∧ (refresh_playlist emptyClient [itemL] fixUrl).addCalls = []
    ∧ (refresh_playlist emptyClient [itemL] fixUrl).final = [itemL] :=
  claim_C2 emptyClient [itemL] fixUrl fixPid fixInfo (by decide) rfl rfl

/-- C3: the slicing loop partitions any M-element URI list into
`ceil(M/100)` batches of size at most 100 whose concatenation is the original
list, and a fully successful refresh issues exactly this partition, once for
the removal pass and once (identically) for the insertion pass. -/
theorem claim_C3 :
    (∀ (l : List String),
      (batches l).flatten = l
      ∧ (∀ b ∈ batches l, b.length ≤ 100)
      ∧ (batches l).length = (l.length + 99) / 100)
    ∧ (∀ (c : Client) (st0 : List PlaylistItem) (url pid : List Char)
        (pinfo : PlaylistInfo) (tracks : List Track),
        extract_playlist_id url = some pid →
        c.info = Except.ok pinfo →
        get_playlist_tracks c.pages = Except.ok tracks →
        tracks ≠ [] →
        (∀ k, c.removeFails k = none) →
        (∀ k, c.addFails k = none) →
        (refresh_playlist c st0 url).removeCalls = batches (tracks.map (fun t => t.uri))
        ∧ (refresh_playlist c st0 url).addCalls = batches (tracks.map (fun t => t.uri))) := by
  constructor
  · intro l
    exact ⟨batches_flatten l, batches_sizes l, batches_length l⟩
  · intro c st0 url pid pinfo tracks h1 h2 h3 h4 h5 h6
    rw [refresh_success_eq c st0 url pid pinfo tracks h1 h2 h3 h4 h5 h6]
    exact ⟨rfl, rfl⟩

/-- C3 witness: the partition properties at a concrete list and the identical
partitions issued by a concrete successful refresh. -/
theorem claim_C3_witness :
    ((batches [("u1"), ("u2")]).flatten = [("u1"), ("u2")]
      ∧ (∀ b ∈ batches [("u1"), ("u2")], b.length ≤ 100)
      ∧ (batches [("u1"), ("u2")]).length
          = (([("u1"), ("u2")] : List String).length + 99) / 100)
    ∧ ((refresh_playlist okClient2 [itemA, itemB] fixUrl).removeCalls
        = batches ((processItems [itemA, itemB]).map (fun t => t.uri))
      ∧ (refresh_playlist okClient2 [itemA, itemB] fixUrl).addCalls
        = batches ((processItems [itemA, itemB]).map (fun t => t.uri))) :=
  ⟨claim_C3.1 [("u1"), ("u2")],
   claim_C3.2 okClient2 [itemA, itemB] fixUrl fixPid fixInfo
     (processItems [itemA, itemB]) (by decide) rfl rfl (by decide)
     (fun _ => rfl) (fun _ => rfl)⟩

/-- C4: pagination returns exactly the eligible tracks of the concatenated
pages, in order; its every output track comes from an entry with a present,
non-empty id (local entries are excluded, and the output length counts exactly
the eligible entries); and every URI in every issued mutation batch is the URI
of such an eligible entry. -/
theorem claim_C4 :
    (∀ (pages : List (List PlaylistItem)),
      get_playlist_tracks (pages.map Except.ok) = Except.ok (processItems pages.flatten))
    ∧ (∀ (items : List PlaylistItem),
        (processItems items).length = items.countP isEligible)
    ∧ (∀ (items : List PlaylistItem) (tr : Track), tr ∈ processItems items →
        ∃ item ∈ items, ∃ t, item.track = some t ∧
          (∃ s, t.id = some s ∧ s.isEmpty = false) ∧ t.uri = tr.uri)
    ∧ (∀ (c : Client) (st0 : List PlaylistItem) (url : List Char)
        (pages : List (List PlaylistItem)) (b : List String) (u : String),
        c.pages = pages.map Except.ok →
        b ∈ (refresh_playlist c st0 url).removeCalls
          ++ (refresh_playlist c st0 url).addCalls →
        u ∈ b →
        ∃ item ∈ pages.flatten, ∃ t, item.track = some t ∧
          (∃ s, t.id = some s ∧ s.isEmpty = false) ∧ t.uri = u) := by
  refine ⟨get_playlist_tracks_all_ok, processItems_length, processItems_mem, ?_⟩
  intro c st0 url pages b u hp hb hu
  have hgpt : get_playlist_tracks c.pages = Except.ok (processItems pages.flatten) := by
    rw [hp]
    exact get_playlist_tracks_all_ok pages
  have hbb := refresh_calls_mem c st0 url (processItems pages.flatten) hgpt b hb
  have humem : u ∈ (processItems pages.flatten).map (fun t => t.uri) := by
    have hfl : u ∈ (batches ((processItems pages.flatten).map (fun t => t.uri))).flatten :=
      List.mem_flatten.mpr ⟨b, hbb, hu⟩
    rwa [batches_flatten] at hfl
  obtain ⟨tr, htr, hueq⟩ := List.mem_map.mp humem
  obtain ⟨item, hmem, t, ht, hid, huri⟩ := processItems_mem pages.flatten tr htr
  exact ⟨item, hmem, t, ht, hid, by rw [huri, hueq]⟩

/-- C4 witness: two concrete pages with a local entry, and a batched URI of a
concrete run traced back to an eligible entry. -/
theorem claim_C4_witness :
    get_playlist_tracks ([[itemA], [itemL, itemB]].map Except.ok)
      = Except.ok (processItems ([[itemA], [itemL, itemB]] : List (List PlaylistItem)).flatten)
    ∧ (∃ item ∈ ([[itemL, itemA]] : List (List PlaylistItem)).flatten, ∃ t,
        item.track = some t ∧ (∃ s, t.id = some s ∧ s.isEmpty = false)
        ∧ t.uri = ("uriA")) :=
  ⟨claim_C4.1 [[itemA], [itemL, itemB]],
   claim_C4.2.2.2 localClient [itemL, itemA] fixUrl [[itemL, itemA]]
     [("uriA")] ("uriA") rfl (by decide) (by decide)⟩

/-- C5: a failing batch call makes `refresh` return failure; at the first
failing call of a pass, the issued calls of that pass are exactly the batches
up to and including the failing one, and the final remote state keeps exactly
the effect of the batches completed before the failure — no rollback. The
first conjunct is the removal-pass failure, the second the insertion-pass
failure (whose removal pass completed fully). -/
theorem claim_C5 (c : Client) (st0 : List PlaylistItem) (url pid : List Char)
    (pinfo : PlaylistInfo) (tracks : List Track) (j : Nat) (e : String)
    (hurl : extract_playlist_id url = some pid)
    (hinfo : c.info = Except.ok pinfo)
    (hgpt : get_playlist_tracks c.pages = Except.ok tracks)
    (hne : tracks ≠ [])
    (hj : j < (batches (tracks.map (fun t => t.uri))).length) :
    ((∀ i, i < j → c.removeFails i = none) → c.removeFails j = some e →
      refresh_result (refresh_playlist c st0 url) = false
      ∧ (refresh_playlist c st0 url).removeCalls
          = (batches (tracks.map (fun t => t.uri))).take (j + 1)
      ∧ (refresh_playlist c st0 url).addCalls = []
      ∧ (refresh_playlist c st0 url).final
          = ((batches (tracks.map (fun t => t.uri))).take j).foldl
              playlist_remove_all_occurrences_of_items st0)
    ∧ ((∀ k, c.removeFails k = none) → (∀ i, i < j → c.addFails i = none) →
      c.addFails j = some e →
      refresh_result (refresh_playlist c st0 url) = false
      ∧ (refresh_playlist c st0 url).removeCalls
          = batches (tracks.map (fun t => t.uri))
      ∧ (refresh_playlist c st0 url).addCalls
          = (batches (tracks.map (fun t => t.uri))).take (j + 1)
      ∧ (refresh_playlist c st0 url).final
          = ((batches (tracks.map (fun t => t.uri))).take j).foldl
              (playlist_add_items c.catalog)
              ((batches (tracks.map (fun t => t.uri))).foldl
                playlist_remove_all_occurrences_of_items st0)) := by
  constructor
  · intro h1 h2
    rw [refresh_removefail_eq c st0 url pid pinfo tracks j e hurl hinfo hgpt hne hj h1 h2]
    exact ⟨rfl, rfl, rfl, rfl⟩
  · intro h0 h1 h2
    rw [refresh_addfail_eq c st0 url pid pinfo tracks j e hurl hinfo hgpt hne h0 hj h1 h2]
    exact ⟨rfl, rfl, rfl, rfl⟩

/-- C5 witness: a concrete run whose first removal batch call fails — the run
reports failure, issues only that one call, and leaves the state untouched. -/
theorem claim_C5_witness :
    refresh_result (refresh_playlist removeFailClient [itemA, itemB] fixUrl) = false
    ∧ (refresh_playlist removeFailClient [itemA, itemB] fixUrl).removeCalls
        = (batches ((processItems [itemA, itemB]).map (fun t => t.uri))).take (0 + 1)
    ∧ (refresh_playlist removeFailClient [itemA, itemB] fixUrl).addCalls = []
    ∧ (refresh_playlist removeFailClient [itemA, itemB] fixUrl).final
        = ((batches ((processItems [itemA, itemB]).map (fun t => t.uri))).take 0).foldl
            playlist_remove_all_occurrences_of_items [itemA, itemB] :=
  (claim_C5 removeFailClient [itemA, itemB] fixUrl fixPid fixInfo
    (processItems [itemA, itemB]) 0 ("rm fail") (by decide) rfl rfl (by decide)
    (by decide)).1 (fun i hi => absurd hi (Nat.not_lt_zero i)) rfl

/-- C6: if the metadata fetch fails, or any page fetch during enumeration
fails, `refresh` returns failure, issues no mutation call, and the remote
playlist state is unchanged. -/
theorem claim_C6 (c : Client) (st0 : List PlaylistItem) (url pid : List Char)
    (e : String)
    (hurl : extract_playlist_id url = some pid)
    (hfail : c.info = Except.error e
      ∨ (∃ pinfo, c.info = Except.ok pinfo
          ∧ get_playlist_tracks c.pages = Except.error e)) :
    refresh_result (refresh_playlist c st0 url) = false
    ∧ (refresh_playlist c st0 url).removeCalls = []
    ∧ (refresh_playlist c st0 url).addCalls = []
    ∧ (refresh_playlist c st0 url).final = st0 := by
  rcases hfail with hinfo | ⟨pinfo, hinfo, hgpt⟩
  · rw [refresh_info_error_eq c st0 url pid e hurl hinfo]
    exact ⟨rfl, rfl, rfl, rfl⟩
  · rw [refresh_pages_error_eq c st0 url pid pinfo e hurl hinfo hgpt]
    exact ⟨rfl, rfl, rfl, rfl⟩

/-- C6 witness: a concrete run whose second track page fetch fails — failure,
no mutation calls, state unchanged. -/
theorem claim_C6_witness :
    refresh_result (refresh_playlist pageErrClient [itemA] fixUrl) = false
    ∧ (refresh_playlist pageErrClient [itemA] fixUrl).removeCalls = []
    ∧ (refresh_playlist pageErrClient [itemA] fixUrl).addCalls = []
    ∧ (refresh_playlist pageErrClient [itemA] fixUrl).final = [itemA] :=
  claim_C6 pageErrClient [itemA] fixUrl fixPid ("page fail") (by decide)
    (Or.inr ⟨fixInfo, rfl, rfl⟩)

/-- C7: every well-formed (non-empty, alphanumeric) identifier resolves
identically through all three reference grammars; moreover any grammar that
matches one of these well-formed references yields that same identifier, so
the fixed priority order does not affect the result; and the spec's concrete
example resolves as stated. -/
theorem claim_C7 (id : List Char) (hne : id ≠ [])
    (ha : ∀ c ∈ id, isAlnum c = true) :
    extract_playlist_id (uriForm id) = some id
    ∧ extract_playlist_id (webForm1 id) = some id
    ∧ extract_playlist_id (webForm2 id) = some id
    ∧ (∀ p ∈ patterns, ∀ f ∈ [uriForm id, webForm1 id, webForm2 id],
        ∀ r, search p f = some r → r = id)
    ∧ extract_playlist_id (("https://open.spotify.com/playlist/37i9dQZF1").toList)
        = some (("37i9dQZF1").toList) :=
  ⟨extract_uriForm id hne ha, extract_webForm1 id hne ha, extract_webForm2 id hne ha,
   search_forms_agree id hne ha, by decide⟩

/-- C7 witness: the three grammars at the concrete identifier `abc123`. -/
theorem claim_C7_witness :
    extract_playlist_id (uriForm (("abc123").toList)) = some (("abc123").toList)
    ∧ extract_playlist_id (webForm1 (("abc123").toList)) = some (("abc123").toList)
    ∧ extract_playlist_id (webForm2 (("abc123").toList)) = some (("abc123").toList) :=
  ⟨(claim_C7 (("abc123").toList) (by decide) (by decide)).1,
   (claim_C7 (("abc123").toList) (by decide) (by decide)).2.1,
   (claim_C7 (("abc123").toList) (by decide) (by decide)).2.2.1⟩

/-- C8: the spec's unrecognized example fails to resolve, and in general any
reference matched by none of the three grammars resolves to nothing at all
(no partial identifier is ever produced). -/
theorem claim_C8 :
    extract_playlist_id (("not-a-playlist").toList) = none
    ∧ ∀ (url : List Char), (∀ p ∈ patterns, search p url = none) →
      extract_playlist_id url = none := by
  refine ⟨by decide, ?_⟩
  intro url h
  rw [extract_playlist_id]
  exact List.findSome?_eq_none_iff.mpr h

/-- C8 witness: an unmatched reference resolves to `none`. -/
theorem claim_C8_witness : extract_playlist_id (("xyz").toList) = none :=
  claim_C8.2 (("xyz").toList) (by decide)

/-- C9: `refresh_playlist` is total and every exception raised inside the
workflow is caught at the boundary and converted to the boolean `false`; a
normal return passes its boolean through. Nothing else can escape. -/
theorem claim_C9 (c : Client) (st0 : List PlaylistItem) (url : List Char) :
    (∃ e, (refresh_playlist c st0 url).tryOutcome = TryOutcome.exn e
      ∧ refresh_result (refresh_playlist c st0 url) = false)
    ∨ (∃ b, (refresh_playlist c st0 url).tryOutcome = TryOutcome.ret b
      ∧ refresh_result (refresh_playlist c st0 url) = b) := by
  cases h : (refresh_playlist c st0 url).tryOutcome with
  | ret b =>
    refine Or.inr ⟨b, rfl, ?_⟩
    rw [refresh_result, h]
  | exn e =>
    refine Or.inl ⟨e, rfl, ?_⟩
    rw [refresh_result, h]

/-- C10: a reference containing any grammar's literal immediately followed by
an alphanumeric character resolves successfully regardless of surrounding
text; every resolved identifier is a non-empty alphanumeric run that sits
immediately after some grammar literal in the reference and is maximal (the
following character, if any, is not alphanumeric); and a web URL with a
`?si=...` query still yields the bare identifier. -/
theorem claim_C10 :
    (∀ p ∈ patterns, ∀ (pre rest : List Char) (c : Char), isAlnum c = true →
      ∃ r, extract_playlist_id (pre ++ (p ++ (c :: rest))) = some r)
    ∧ (∀ (url r : List Char), extract_playlist_id url = some r →
        r ≠ [] ∧ (∀ ch ∈ r, isAlnum ch = true) ∧
        ∃ p ∈ patterns, ∃ pre post, url = pre ++ p ++ r ++ post ∧
          (∀ d t, post = d :: t → isAlnum d = false))
    ∧ extract_playlist_id (("https://open.spotify.com/playlist/37i9dQZF1?si=abc123").toList)
        = some (("37i9dQZF1").toList) := by
  refine ⟨?_, ?_, by decide⟩
  · intro p hp pre rest c hc
    have hpne : p ≠ [] := by
      simp only [patterns, List.mem_cons, List.not_mem_nil, or_false] at hp
      rcases hp with rfl | rfl | rfl <;> decide
    obtain ⟨r, hr⟩ := search_exists p hpne pre c rest hc
    cases hfs : extract_playlist_id (pre ++ (p ++ (c :: rest))) with
    | some r2 => exact ⟨r2, rfl⟩
    | none =>
      rw [extract_playlist_id] at hfs
      have hnone := List.findSome?_eq_none_iff.mp hfs p hp
      rw [hr] at hnone
      cases hnone
  · intro url r hr
    rw [extract_playlist_id] at hr
    obtain ⟨p, hp, hsearch⟩ := List.exists_of_findSome?_eq_some hr
    obtain ⟨h1, h2, pre, post, heq, hpost⟩ := search_sound p url r hsearch
    exact ⟨h1, h2, p, hp, pre, post, heq, hpost⟩

/-- C10 witness: a reference with text on both sides of the grammar literal
resolves, and a concrete resolved identifier decomposes as an alphanumeric
run placed right after a grammar literal. -/
theorem claim_C10_witness :
    (∃ r, extract_playlist_id ((("see ").toList)
        ++ ((("spotify:playlist:").toList) ++ ('a' :: (("b?q").toList)))) = some r)
    ∧ (("x").toList ≠ [] ∧ (∀ ch ∈ ("x").toList, isAlnum ch = true) ∧
        ∃ p ∈ patterns, ∃ pre post, fixUrl = pre ++ p ++ ("x").toList ++ post ∧
          (∀ d t, post = d :: t → isAlnum d = false)) :=
  ⟨claim_C10.1 (("spotify:playlist:").toList) (by decide) (("see ").toList)
     (("b?q").toList) 'a' (by decide),
   claim_C10.2.1 fixUrl (("x").toList) (by decide)⟩
